import Mathlib

/-!
Verification of the `luogu-socket` client (src/luogu-socket.ts).

The source is a single-threaded, event-driven WebSocket multiplexing layer.
We embed it as an explicit state machine: `SocketState` holds the fields of
the `Socket` object (transport generation and readiness, the `_pingTimeout`
handle, the `_channels` registry) together with a heap of `Channel` objects
(JS objects survive even after removal from the registry, because timer
closures still reference them) and the set of pending `setTimeout` timers.
Every handler of the source is a pure function from state to
state-plus-a-trace-of-effects (frames written to the transport, observer
notifications, timer management, transport management).

Time units: the source schedules the join retry and the pong deadline with
`setTimeout(..., 1000)` and the heartbeat idle wait with
`setTimeout(..., 10000)`; one spec "time unit" is 1000 ms.
-/

set_option maxHeartbeats 1000000

/-! ## The channel key: `JSON.stringify([channel, param])`

`channelKey` in the source builds the registry key of a channel as the JSON
serialization of the two-element array `[channel, param]`.  We model the
JavaScript string-escaping rules of `JSON.stringify` character by character
and prove the encoding injective (via an explicit decoder), which is what
makes the registry sound. -/

/-- Lowercase hexadecimal digit for `n < 16` (as produced by `JSON.stringify`
unicode escapes). -/
def hexDigit (n : Nat) : Char :=
  if n < 10 then Char.ofNat (48 + n) else Char.ofNat (87 + n)

/-- Inverse of `hexDigit` on digit characters. -/
def hexVal (c : Char) : Nat :=
  if 97 ≤ c.toNat then c.toNat - 87 else c.toNat - 48

/-- The escaping `JSON.stringify` applies to one character inside a string
literal: `"` and `\` are backslash-escaped, the control characters with
short escapes use them, the remaining control characters get a `\u00XX`
escape, and every other character is emitted verbatim. -/
def escChar (c : Char) : List Char :=
  if c = '"' then ['\\', '"']
  else if c = '\\' then ['\\', '\\']
  else if c.toNat = 8 then ['\\', 'b']
  else if c.toNat = 9 then ['\\', 't']
  else if c.toNat = 10 then ['\\', 'n']
  else if c.toNat = 12 then ['\\', 'f']
  else if c.toNat = 13 then ['\\', 'r']
  else if c.toNat < 32 then ['\\', 'u', '0', '0', hexDigit (c.toNat / 16), hexDigit (c.toNat % 16)]
  else [c]

/-- Inverse of the short escapes of `escChar`. -/
def unescShort (e : Char) : Char :=
  if e = 'b' then Char.ofNat 8
  else if e = 't' then Char.ofNat 9
  else if e = 'n' then Char.ofNat 10
  else if e = 'f' then Char.ofNat 12
  else if e = 'r' then Char.ofNat 13
  else e

/-- Decoder for an escaped JSON string body: reads characters up to the
closing unescaped `"` and returns the decoded body together with the rest of
the input after the closing quote.  (Total; on malformed input it returns
garbage, which is irrelevant: we only evaluate it on images of `escChar`.) -/
def unesc : List Char → List Char × List Char
  | [] => ([], [])
  | c :: r =>
    if c = '"' then ([], r)
    else if c = '\\' then
      match r with
      | [] => ([], [])
      | e :: r2 =>
        if e = 'u' then
          match r2 with
          | _ :: _ :: h1 :: h2 :: r3 =>
            let p := unesc r3
            (Char.ofNat (16 * hexVal h1 + hexVal h2) :: p.1, p.2)
          | _ => ([], [])
        else
          let p := unesc r2
          (unescShort e :: p.1, p.2)
    else
      let p := unesc r
      (c :: p.1, p.2)

/-- Encoding `JSON.stringify` applies to one string value, as a character list. -/
def quoteJson (s : String) : List Char :=
  '"' :: s.data.flatMap escChar ++ ['"']

/-- Function `channelKey` from the source: `JSON.stringify([channel, param])`. -/
def channelKey (channel param : String) : String :=
  String.mk ('[' :: quoteJson channel ++ ',' :: quoteJson param ++ [']'])

lemma hexVal_hexDigit {m : Nat} (h : m < 16) : hexVal (hexDigit m) = m := by
  interval_cases m <;> decide

/-- Round trip: decoding an escaped body followed by a closing quote
recovers the body and the rest. -/
lemma unesc_escape (cs : List Char) (rest : List Char) :
    unesc (cs.flatMap escChar ++ '"' :: rest) = (cs, rest) := by
  induction cs with
  | nil =>
    rw [List.flatMap_nil, List.nil_append, unesc.eq_def]
    simp
  | cons c cs ih =>
    show unesc (escChar c ++ cs.flatMap escChar ++ '"' :: rest) = _
    by_cases h1 : c = '"'
    · subst h1
      rw [show escChar '"' = ['\\', '"'] from rfl]
      simp only [List.cons_append, List.nil_append]
      rw [unesc.eq_def]
      simp [unescShort, ih]
    · by_cases h2 : c = '\\'
      · subst h2
        rw [show escChar '\\' = ['\\', '\\'] from rfl]
        simp only [List.cons_append, List.nil_append]
        rw [unesc.eq_def]
        simp [unescShort, ih]
      · by_cases h3 : c.toNat = 8
        · have hc : Char.ofNat 8 = c := by rw [← h3, Char.ofNat_toNat]
          rw [show escChar c = ['\\', 'b'] by simp [escChar, h1, h2, h3]]
          simp only [List.cons_append, List.nil_append]
          rw [unesc.eq_def]
          simp [unescShort, ih]
          exact hc
        · by_cases h4 : c.toNat = 9
          · have hc : Char.ofNat 9 = c := by rw [← h4, Char.ofNat_toNat]
            rw [show escChar c = ['\\', 't'] by simp [escChar, h1, h2, h3, h4]]
            simp only [List.cons_append, List.nil_append]
            rw [unesc.eq_def]
            simp [unescShort, ih]
            exact hc
          · by_cases h5 : c.toNat = 10
            · have hc : Char.ofNat 10 = c := by rw [← h5, Char.ofNat_toNat]
              rw [show escChar c = ['\\', 'n'] by simp [escChar, h1, h2, h3, h4, h5]]
              simp only [List.cons_append, List.nil_append]
              rw [unesc.eq_def]
              simp [unescShort, ih]
              exact hc
            · by_cases h6 : c.toNat = 12
              · have hc : Char.ofNat 12 = c := by rw [← h6, Char.ofNat_toNat]
                rw [show escChar c = ['\\', 'f'] by simp [escChar, h1, h2, h3, h4, h5, h6]]
                simp only [List.cons_append, List.nil_append]
                rw [unesc.eq_def]
                simp [unescShort, ih]
                exact hc
              · by_cases h7 : c.toNat = 13
                · have hc : Char.ofNat 13 = c := by rw [← h7, Char.ofNat_toNat]
                  rw [show escChar c = ['\\', 'r'] by
                    simp [escChar, h1, h2, h3, h4, h5, h6, h7]]
                  simp only [List.cons_append, List.nil_append]
                  rw [unesc.eq_def]
                  simp [unescShort, ih]
                  exact hc
                · by_cases h8 : c.toNat < 32
                  · have hdiv : c.toNat / 16 < 16 := by omega
                    have hmod : c.toNat % 16 < 16 := Nat.mod_lt _ (by omega)
                    rw [show escChar c
                        = ['\\', 'u', '0', '0', hexDigit (c.toNat / 16), hexDigit (c.toNat % 16)]
                      by simp [escChar, h1, h2, h3, h4, h5, h6, h7, h8]]
                    simp only [List.cons_append, List.nil_append]
                    rw [unesc.eq_def]
                    simp only [reduceIte, ih]
                    rw [hexVal_hexDigit hdiv, hexVal_hexDigit hmod,
                      Nat.div_add_mod, Char.ofNat_toNat,
                      if_neg (show ¬ ('\\' : Char) = '"' by decide)]
                  · rw [show escChar c = [c] by simp [escChar, h1, h2, h3, h4, h5, h6, h7, h8]]
                    simp only [List.cons_append, List.nil_append]
                    rw [unesc.eq_def]
                    simp [h1, h2, ih]

/-- Cancellation for quoted bodies embedded in a larger string. -/
lemma quote_cancel {s1 s2 : String} {r1 r2 : List Char}
    (h : s1.data.flatMap escChar ++ '"' :: r1 = s2.data.flatMap escChar ++ '"' :: r2) :
    s1 = s2 ∧ r1 = r2 := by
  have h1 := unesc_escape s1.data r1
  have h2 := unesc_escape s2.data r2
  rw [h, h2] at h1
  have ha : s2.data = s1.data := congrArg Prod.fst h1
  have hb : r2 = r1 := congrArg Prod.snd h1
  exact ⟨String.ext ha.symm, hb.symm⟩

/-- The registry key is injective: distinct `(channel, param)` pairs get
distinct keys, so the `Map` in the source never conflates two channels. -/
theorem channelKey_inj {c1 p1 c2 p2 : String}
    (h : channelKey c1 p1 = channelKey c2 p2) : c1 = c2 ∧ p1 = p2 := by
  have hd : ('[' :: quoteJson c1 ++ ',' :: quoteJson p1 ++ [']'])
      = ('[' :: quoteJson c2 ++ ',' :: quoteJson p2 ++ [']']) := congrArg String.data h
  simp only [quoteJson, List.cons_append, List.append_assoc, List.singleton_append,
    List.nil_append, List.cons.injEq, true_and] at hd
  obtain ⟨hc, hr⟩ := quote_cancel hd
  simp only [List.cons.injEq, true_and] at hr
  obtain ⟨hp, _⟩ := quote_cancel hr
  exact ⟨hc, hp⟩

/-! ## Wire protocol data model

The inbound (`IncomingMessage`) and outbound (`OutgoingMessage`) frame
shapes of the source.  Arbitrary extra payload fields (`[key: string]:
unknown` in the source) are carried as an opaque association list; the
client never inspects them. -/

/-- Inbound frames.  Every variant carries the `_channel` and
`_channel_param` routing fields; `join_result` additionally carries
`client_number` and `welcome_message`, `heartbeat` carries
`client_number`. -/
inductive IncomingMessage where
  | serverBroadcast (channel param : String) (payload : List (String × String))
  | joinResult (channel param : String) (clientNumber : Nat) (welcomeMessage : String)
  | exclusiveKickoff (channel param : String) (payload : List (String × String))
  | heartbeatMsg (channel param : String) (clientNumber : Nat)
  deriving DecidableEq, Repr

/-- The `_channel` routing field of an inbound frame. -/
def IncomingMessage.chan : IncomingMessage → String
  | .serverBroadcast c _ _ => c
  | .joinResult c _ _ _ => c
  | .exclusiveKickoff c _ _ => c
  | .heartbeatMsg c _ _ => c

/-- The `_channel_param` routing field of an inbound frame. -/
def IncomingMessage.chanParam : IncomingMessage → String
  | .serverBroadcast _ p _ => p
  | .joinResult _ p _ _ => p
  | .exclusiveKickoff _ p _ => p
  | .heartbeatMsg _ p _ => p

/-- Outbound frames: `data`, `join_channel` and `disconnect_channel`, each
carrying `channel` and `channel_param`; the join and disconnect frames also
carry `exclusive_key`. -/
inductive OutgoingMessage where
  | dataMsg (channel channelParam : String) (payload : String)
  | joinChannelMsg (channel channelParam exclusiveKey : String)
  | disconnectChannelMsg (channel channelParam exclusiveKey : String)
  deriving DecidableEq, Repr

/-! ## State model -/

/-- The `WebSocket.readyState` values. -/
inductive ReadyState where
  | connecting
  | opened
  | closing
  | closed
  deriving DecidableEq, Repr

/-- What a pending `setTimeout` will do when it fires: retry the join of
the channel object `cid` (`Channel._join`), run the heartbeat idle action
(ping then arm the pong deadline), or terminate the transport (the pong
deadline of `Socket._heartbeat`). -/
inductive TimerAction where
  | joinRetry (cid : Nat)
  | heartbeatIdle
  | pongDeadline
  deriving DecidableEq, Repr

/-- A pending `setTimeout` handle: fresh numeric id, delay in ms, action. -/
structure Timer where
  id : Nat
  delay : Nat
  action : TimerAction
  deriving DecidableEq, Repr

/-- One `Channel` object.  `joinTimeout` is the numeric id last stored in
the `_joinTimeout` field (0 when the definite-assignment field was never
assigned; real timer ids start at 1).  The identity fields are `readonly`
in the source. -/
structure ChannelObj where
  channel : String
  param : String
  exclusiveKey : String
  joinTimeout : Nat
  deriving DecidableEq, Repr

/-- Observer notifications (`EventEmitter.emit` calls).  Channel-level
notifications are tagged with the heap index of the emitting `Channel`. -/
inductive Notification where
  | sockOpen
  | sockClose (code : Nat) (reason : String)
  | sockReconnect (code : Nat) (reason : String)
  | chanMessage (cid : Nat) (msg : IncomingMessage)
  | chanJoin (cid : Nat) (welcome : String)
  | chanKick (cid : Nat) (msg : IncomingMessage)
  deriving DecidableEq, Repr

/-- Observable effects of a handler, in execution order.  Transport
effects are tagged with the generation number of the `WebSocket` handle
they act on (the handle is replaced wholesale on each reconnect). -/
inductive Effect where
  | sendFrame (gen : Nat) (msg : OutgoingMessage)
  | notify (n : Notification)
  | wsPing (gen : Nat)
  | wsTerminate (gen : Nat)
  | wsCloseReq (gen : Nat)
  | wsNew (gen : Nat) (url : String) (handshakeTimeout : Nat)
  | setTimer (id delay : Nat)
  | clearTimer (id : Nat)
  deriving DecidableEq, Repr

/-- The whole mutable state of one `Socket` and its channels.

* `wsCreated`/`wsGen`/`readyState` model the `_ws` field: whether it was
  ever assigned, how many `WebSocket` handles were created so far (the
  current one is generation `wsGen`), and the current handle's readiness.
* `pingTimeout` is the id stored in `_pingTimeout` (0 = never assigned).
* `chanObjs` is the heap of `Channel` objects ever constructed, indexed by
  `cid`; objects removed from the registry stay on the heap because timer
  closures still reference them.
* `channels` is the `_channels` map: registry key to heap index, in
  insertion order.
* `timers` are the pending `setTimeout`s, `nextTimerId` the next fresh id. -/
structure SocketState where
  url : String
  wsCreated : Bool
  wsGen : Nat
  readyState : ReadyState
  pingTimeout : Nat
  chanObjs : List ChannelObj
  channels : List (String × Nat)
  timers : List Timer
  nextTimerId : Nat
  deriving DecidableEq, Repr

/-- Getter `Socket.isOpen`: `this._ws.readyState === WebSocket.OPEN`. -/
def SocketState.isOpen (st : SocketState) : Bool :=
  st.wsCreated && st.readyState == ReadyState.opened

/-- Lookup (`Map.get`) on the registry. -/
def lookupKey : List (String × Nat) → String → Option Nat
  | [], _ => none
  | (k, v) :: r, key => if k = key then some v else lookupKey r key

/-- Removal (`Map.delete`) on the registry. -/
def deleteKey : List (String × Nat) → String → List (String × Nat)
  | [], _ => []
  | (k, v) :: r, key => if k = key then r else (k, v) :: deleteKey r key

/-- Scheduling `setTimeout(action, delay)`: register a pending timer under a fresh id
and return the id (the handle stored by the caller). -/
def setTimeoutOp (st : SocketState) (delay : Nat) (act : TimerAction) : SocketState × Nat :=
  let tid := st.nextTimerId
  ({ st with timers := st.timers ++ [⟨tid, delay, act⟩], nextTimerId := tid + 1 }, tid)

/-- Cancellation `clearTimeout(tid)`: drop the pending timer with the given id (no-op on
an id that is not pending, e.g. an already-fired or never-assigned
handle). -/
def clearTimeoutOp (st : SocketState) (tid : Nat) : SocketState :=
  { st with timers := st.timers.filter (fun t => t.id != tid) }

/-! ## Operations

Each operation mirrors one method or registered handler of the source,
returning the successor state together with the list of effects in the
order the source performs them. -/

/-- Method `Channel._join` on the channel object at heap index `cid`:
if the socket is not open, do nothing; otherwise send a `join_channel`
frame with the object's `(channel, param, exclusiveKey)` and store a fresh
1000 ms retry timer in `_joinTimeout` (overwriting the handle without
clearing it). -/
def joinOp (st : SocketState) (cid : Nat) : SocketState × List Effect :=
  if !st.isOpen then (st, [])
  else
    match st.chanObjs[cid]? with
    | none => (st, [])
    | some ch =>
      let p := setTimeoutOp st 1000 (TimerAction.joinRetry cid)
      ({ p.1 with chanObjs := p.1.chanObjs.set cid { ch with joinTimeout := p.2 } },
       [Effect.sendFrame st.wsGen (OutgoingMessage.joinChannelMsg ch.channel ch.param ch.exclusiveKey),
        Effect.setTimer p.2 1000])

/-- Method `Channel.quit`: send a `disconnect_channel` frame with the object's
identity and delete the object's key from the registry.  Timers and the
heap are untouched. -/
def quitOp (st : SocketState) (cid : Nat) : SocketState × List Effect :=
  match st.chanObjs[cid]? with
  | none => (st, [])
  | some ch =>
    ({ st with channels := deleteKey st.channels (channelKey ch.channel ch.param) },
     [Effect.sendFrame st.wsGen (OutgoingMessage.disconnectChannelMsg ch.channel ch.param ch.exclusiveKey)])

/-- Method `Channel.send(obj)`: ask the socket to transmit a `data` frame. -/
def sendDataOp (st : SocketState) (cid : Nat) (payload : String) : SocketState × List Effect :=
  match st.chanObjs[cid]? with
  | none => (st, [])
  | some ch =>
    (st, [Effect.sendFrame st.wsGen (OutgoingMessage.dataMsg ch.channel ch.param payload)])

/-- Method `Channel._onMessage`: dispatch one routed inbound frame by its
`_ws_type`.  `server_broadcast` notifies "message" subscribers with the
frame, `join_result` notifies "join" subscribers with the welcome text and
then clears `_joinTimeout`, `exclusive_kickoff` notifies "kick"
subscribers with the frame, and `heartbeat` matches no case of the switch
and does nothing. -/
def onMessageOp (st : SocketState) (cid : Nat) (m : IncomingMessage) : SocketState × List Effect :=
  match st.chanObjs[cid]? with
  | none => (st, [])
  | some ch =>
    match m with
    | IncomingMessage.serverBroadcast _ _ _ =>
      (st, [Effect.notify (Notification.chanMessage cid m)])
    | IncomingMessage.joinResult _ _ _ welcome =>
      (clearTimeoutOp st ch.joinTimeout,
       [Effect.notify (Notification.chanJoin cid welcome), Effect.clearTimer ch.joinTimeout])
    | IncomingMessage.exclusiveKickoff _ _ _ =>
      (st, [Effect.notify (Notification.chanKick cid m)])
    | IncomingMessage.heartbeatMsg _ _ _ => (st, [])

/-- Method `Socket._heartbeat`: arm the 10000 ms idle timer and store its handle
in `_pingTimeout`. -/
def heartbeatOp (st : SocketState) : SocketState × List Effect :=
  let p := setTimeoutOp st 10000 TimerAction.heartbeatIdle
  ({ p.1 with pingTimeout := p.2 }, [Effect.setTimer p.2 10000])

/-- The unconditional body of `Socket.connect`: replace `_ws` with a fresh
`WebSocket` handle bound to the url with `handshakeTimeout: 10000`; the
new handle starts out CONNECTING. -/
def connectRaw (st : SocketState) : SocketState × List Effect :=
  ({ st with wsCreated := true, wsGen := st.wsGen + 1, readyState := ReadyState.connecting },
   [Effect.wsNew (st.wsGen + 1) st.url 10000])

/-- Method `Socket.connect`: throw `"Socket is already open"` when `_ws` exists
and its readyState is CONNECTING or OPEN; otherwise create the fresh
handle. -/
def connectOp (st : SocketState) : Except String (SocketState × List Effect) :=
  if st.wsCreated ∧ (st.readyState = ReadyState.connecting ∨ st.readyState = ReadyState.opened)
  then Except.error "Socket is already open"
  else Except.ok (connectRaw st)

/-- The loop `for (const ch of this._channels.values()) ch._join()` of the
open handler, over the registry's heap indices in insertion order. -/
def joinAllOp : SocketState → List Nat → SocketState × List Effect
  | st, [] => (st, [])
  | st, cid :: rest =>
    let p := joinOp st cid
    let q := joinAllOp p.1 rest
    (q.1, p.2 ++ q.2)

/-- The `open` event: the handle becomes OPEN, then the registered handler
re-issues `_join` for every registered channel, notifies observers of
"open" and starts the heartbeat. -/
def handleOpenEv (st : SocketState) : SocketState × List Effect :=
  let st0 := { st with readyState := ReadyState.opened }
  let p := joinAllOp st0 (st0.channels.map Prod.snd)
  let q := heartbeatOp p.1
  (q.1, p.2 ++ [Effect.notify Notification.sockOpen] ++ q.2)

/-- The `pong` event handler: clear the pending `_pingTimeout` and restart
the heartbeat cycle. -/
def handlePongEv (st : SocketState) : SocketState × List Effect :=
  let q := heartbeatOp (clearTimeoutOp st st.pingTimeout)
  (q.1, Effect.clearTimer st.pingTimeout :: q.2)

/-- The `message` event handler: look the frame's `(channel, param)` key up
in the registry and hand the frame to the matching channel's dispatch; a
frame with no match is dropped silently (`?.` optional chaining). -/
def handleMessageEv (st : SocketState) (m : IncomingMessage) : SocketState × List Effect :=
  match lookupKey st.channels (channelKey m.chan m.chanParam) with
  | none => (st, [])
  | some cid => onMessageOp st cid m

/-- The `close` event: the handle becomes CLOSED, then the registered
handler clears `_pingTimeout` and classifies the code: codes `≤ 1000` or
`≥ 2000` notify observers of "close"; every other code notifies observers
of "reconnect" and immediately calls `connect()` again (whose guard cannot
fire, since the handle just became CLOSED). -/
def handleCloseEv (st : SocketState) (code : Nat) (reason : String) : SocketState × List Effect :=
  let st1 := clearTimeoutOp { st with readyState := ReadyState.closed } st.pingTimeout
  if code ≤ 1000 ∨ 2000 ≤ code then
    (st1, [Effect.clearTimer st.pingTimeout, Effect.notify (Notification.sockClose code reason)])
  else
    match connectOp st1 with
    | Except.ok p =>
      (p.1, [Effect.clearTimer st.pingTimeout,
             Effect.notify (Notification.sockReconnect code reason)] ++ p.2)
    | Except.error _ =>
      (st1, [Effect.clearTimer st.pingTimeout,
             Effect.notify (Notification.sockReconnect code reason)])

/-- What a timer closure does when it runs.  The closures capture `this`,
so they read the current `_ws` (generation) and channel state at fire
time, not at scheduling time. -/
def runTimerAction (st : SocketState) : TimerAction → SocketState × List Effect
  | TimerAction.joinRetry cid => joinOp st cid
  | TimerAction.heartbeatIdle =>
    let p := setTimeoutOp st 1000 TimerAction.pongDeadline
    ({ p.1 with pingTimeout := p.2 }, [Effect.wsPing st.wsGen, Effect.setTimer p.2 1000])
  | TimerAction.pongDeadline =>
    ({ st with readyState := ReadyState.closing }, [Effect.wsTerminate st.wsGen])

/-- Fire the pending timer with id `tid`: remove it from the pending set
and run its action; ids that are not pending do nothing. -/
def fireTimerOp (st : SocketState) (tid : Nat) : SocketState × List Effect :=
  match st.timers.find? (fun t => t.id == tid) with
  | none => (st, [])
  | some t => runTimerAction (clearTimeoutOp st tid) t.action

/-- Method `Socket.channel(channel, param, exclusiveKey)`: return the registered
channel for the key when there is one; otherwise construct a fresh
`Channel`, register it and call its `_join`.  Also returns the heap index
of the returned channel object. -/
def channelOp (st : SocketState) (channel param exclusiveKey : String) :
    (SocketState × List Effect) × Nat :=
  match lookupKey st.channels (channelKey channel param) with
  | some cid => ((st, []), cid)
  | none =>
    (joinOp
      { st with chanObjs := st.chanObjs ++ [⟨channel, param, exclusiveKey, 0⟩],
                channels := st.channels ++ [(channelKey channel param, st.chanObjs.length)] }
      st.chanObjs.length,
     st.chanObjs.length)

/-- External stimuli: transport events on the current handle, timer
firings, and the public API calls a consumer can make. -/
inductive Event where
  | wsOpenEv
  | wsPongEv
  | wsMessageEv (m : IncomingMessage)
  | wsCloseEv (code : Nat) (reason : String)
  | wsErrorEv
  | timerEv (tid : Nat)
  | apiChannel (channel param exclusiveKey : String)
  | apiQuit (cid : Nat)
  | apiSend (cid : Nat) (payload : String)
  | apiClose
  | apiConnect
  deriving DecidableEq, Repr

/-- One reaction of the event loop.  Transport events are guarded by the
readiness states in which the `ws` library can deliver them (`open` only
while CONNECTING, `pong`/`message` only while OPEN, `close` at most once);
`error` forcibly terminates the current handle; `apiConnect` swallows the
synchronous `connect()` exception (the throw leaves the state unchanged). -/
def step (st : SocketState) : Event → SocketState × List Effect
  | Event.wsOpenEv =>
    if st.wsCreated ∧ st.readyState = ReadyState.connecting then handleOpenEv st else (st, [])
  | Event.wsPongEv => if st.isOpen then handlePongEv st else (st, [])
  | Event.wsMessageEv m => if st.isOpen then handleMessageEv st m else (st, [])
  | Event.wsCloseEv code reason =>
    if st.wsCreated ∧ st.readyState ≠ ReadyState.closed
    then handleCloseEv st code reason else (st, [])
  | Event.wsErrorEv =>
    if st.wsCreated
    then ({ st with readyState := ReadyState.closing }, [Effect.wsTerminate st.wsGen])
    else (st, [])
  | Event.timerEv tid => fireTimerOp st tid
  | Event.apiChannel c p k => (channelOp st c p k).1
  | Event.apiQuit cid => quitOp st cid
  | Event.apiSend cid payload => sendDataOp st cid payload
  | Event.apiClose =>
    if st.wsCreated ∧ (st.readyState = ReadyState.connecting ∨ st.readyState = ReadyState.opened)
    then ({ st with readyState := ReadyState.closing }, [Effect.wsCloseReq st.wsGen])
    else (st, [])
  | Event.apiConnect =>
    match connectOp st with
    | Except.ok p => p
    | Except.error _ => (st, [])

/-- The state of a `Socket` object before its constructor body runs. -/
def blankState (url : String) : SocketState :=
  { url := url, wsCreated := false, wsGen := 0, readyState := ReadyState.closed,
    pingTimeout := 0, chanObjs := [], channels := [], timers := [], nextTimerId := 1 }

/-- Construction `new Socket(url)`: the constructor calls `connect()` (whose guard is
vacuous on the blank state). -/
def socketInit (url : String) : SocketState × List Effect :=
  match connectOp (blankState url) with
  | Except.ok p => p
  | Except.error _ => (blankState url, [])

/-- Run a list of events, accumulating the effect trace. -/
def runEvents : SocketState → List Event → SocketState × List Effect
  | st, [] => (st, [])
  | st, e :: es =>
    let p := step st e
    let q := runEvents p.1 es
    (q.1, p.2 ++ q.2)

/-- Construct the socket and run a list of events: exactly the states a
real `Socket` object can reach. -/
def runFromInit (url : String) (evts : List Event) : SocketState × List Effect :=
  let p := socketInit url
  let q := runEvents p.1 evts
  (q.1, p.2 ++ q.2)

/-! ## Demonstration states for witnesses -/

/-- A reachable state with an open transport, one registered channel
(`("a", "")`, heap index 0, pending join retry timer 2) and a pending
heartbeat idle timer 1. -/
def stOpenDemo : SocketState :=
  (runFromInit "u" [Event.wsOpenEv, Event.apiChannel "a" "" "k"]).1

/-! ## Claim C1 -/

/-- Claim C1: on a `close` event with code `c` on the current transport,
the pending heartbeat/pong-deadline timer is cancelled first; then, if
`c ≤ 1000` or `c ≥ 2000`, observers are notified of "close" with
`(code, reason)` and no reconnection attempt is made (no new transport
handle, same generation); for every other `c`, observers are notified of
"reconnect" with `(code, reason)` and `open()` runs again immediately
(a fresh transport handle of the next generation is created). -/
theorem c1_close_classification (st : SocketState) (code : Nat) (reason : String)
    (hw : st.wsCreated = true) (hr : st.readyState ≠ ReadyState.closed) :
    (code ≤ 1000 ∨ 2000 ≤ code →
      step st (Event.wsCloseEv code reason) =
        ({ st with readyState := ReadyState.closed,
                   timers := st.timers.filter (fun t => t.id != st.pingTimeout) },
         [Effect.clearTimer st.pingTimeout,
          Effect.notify (Notification.sockClose code reason)]))
    ∧ (1000 < code → code < 2000 →
      step st (Event.wsCloseEv code reason) =
        ({ st with wsCreated := true, wsGen := st.wsGen + 1,
                   readyState := ReadyState.connecting,
                   timers := st.timers.filter (fun t => t.id != st.pingTimeout) },
         [Effect.clearTimer st.pingTimeout,
          Effect.notify (Notification.sockReconnect code reason),
          Effect.wsNew (st.wsGen + 1) st.url 10000])) := by
  constructor
  · intro hcode
    simp [step, hw, hr, handleCloseEv, clearTimeoutOp, hcode]
  · intro hlo hhi
    have hcode : ¬ (code ≤ 1000 ∨ 2000 ≤ code) := by omega
    simp [step, hw, hr, handleCloseEv, clearTimeoutOp, hcode, connectOp, connectRaw]

/-- Witness for C1: both branches evaluated on the concrete reachable state
`stOpenDemo`, at the terminal code 1000 and at the transient code 1006
(the code produced by a forced termination). -/
theorem c1_close_classification_witness :
    (step stOpenDemo (Event.wsCloseEv 1000 "bye") =
      ({ stOpenDemo with readyState := ReadyState.closed,
                         timers := stOpenDemo.timers.filter
                           (fun t => t.id != stOpenDemo.pingTimeout) },
       [Effect.clearTimer stOpenDemo.pingTimeout,
        Effect.notify (Notification.sockClose 1000 "bye")]))
    ∧ (step stOpenDemo (Event.wsCloseEv 1006 "abnormal") =
      ({ stOpenDemo with wsCreated := true, wsGen := stOpenDemo.wsGen + 1,
                         readyState := ReadyState.connecting,
                         timers := stOpenDemo.timers.filter
                           (fun t => t.id != stOpenDemo.pingTimeout) },
       [Effect.clearTimer stOpenDemo.pingTimeout,
        Effect.notify (Notification.sockReconnect 1006 "abnormal"),
        Effect.wsNew (stOpenDemo.wsGen + 1) stOpenDemo.url 10000])) :=
  ⟨(c1_close_classification stOpenDemo 1000 "bye" (by decide) (by decide)).1
      (Or.inl (by decide)),
   (c1_close_classification stOpenDemo 1006 "abnormal" (by decide) (by decide)).2
      (by decide) (by decide)⟩

/-! ## Claim C2 -/

/-- Claim C2, the heartbeat cycle, as four facts about the handlers:
(1) after a transport `open` the handler ends by arming a fresh
10000 ms (10 time-unit) idle timer whose handle is stored in
`_pingTimeout`; (2) after a received `pong` the pending `_pingTimeout`
timer (the 1-unit deadline when one is armed) is cancelled and a fresh
10000 ms idle timer is started; (3) when the idle timer fires, a ping is
sent and a 1000 ms (1 time-unit) deadline timer is armed in its place;
(4) when the deadline timer fires, the transport is forcibly
terminated. -/
theorem c2_heartbeat (st : SocketState) :
    (st.wsCreated = true → st.readyState = ReadyState.connecting →
      ∃ tid, (step st Event.wsOpenEv).1.pingTimeout = tid ∧
        Timer.mk tid 10000 TimerAction.heartbeatIdle ∈ (step st Event.wsOpenEv).1.timers ∧
        Effect.setTimer tid 10000 ∈ (step st Event.wsOpenEv).2)
    ∧ (st.isOpen = true →
      step st Event.wsPongEv =
        ({ st with
             timers := st.timers.filter (fun t => t.id != st.pingTimeout)
               ++ [Timer.mk st.nextTimerId 10000 TimerAction.heartbeatIdle],
             pingTimeout := st.nextTimerId, nextTimerId := st.nextTimerId + 1 },
         [Effect.clearTimer st.pingTimeout, Effect.setTimer st.nextTimerId 10000]))
    ∧ (∀ tid, st.timers.find? (fun t => t.id == tid)
            = some (Timer.mk tid 10000 TimerAction.heartbeatIdle) →
      step st (Event.timerEv tid) =
        ({ st with
             timers := st.timers.filter (fun t => t.id != tid)
               ++ [Timer.mk st.nextTimerId 1000 TimerAction.pongDeadline],
             pingTimeout := st.nextTimerId, nextTimerId := st.nextTimerId + 1 },
         [Effect.wsPing st.wsGen, Effect.setTimer st.nextTimerId 1000]))
    ∧ (∀ tid, st.timers.find? (fun t => t.id == tid)
            = some (Timer.mk tid 1000 TimerAction.pongDeadline) →
      step st (Event.timerEv tid) =
        ({ st with timers := st.timers.filter (fun t => t.id != tid),
                   readyState := ReadyState.closing },
         [Effect.wsTerminate st.wsGen])) := by
  refine ⟨?_, ?_, ?_, ?_⟩
  · intro hw hr
    refine ⟨(joinAllOp { st with readyState := ReadyState.opened }
        ({ st with readyState := ReadyState.opened }.channels.map Prod.snd)).1.nextTimerId,
      ?_, ?_, ?_⟩ <;>
      simp [step, hw, hr, handleOpenEv, heartbeatOp, setTimeoutOp]
  · intro ho
    simp [step, ho, handlePongEv, heartbeatOp, setTimeoutOp, clearTimeoutOp]
  · intro tid hfind
    simp [step, fireTimerOp, hfind, runTimerAction, setTimeoutOp, clearTimeoutOp]
  · intro tid hfind
    simp [step, fireTimerOp, hfind, runTimerAction, clearTimeoutOp]

/-- Witness for C2: all four heartbeat facts evaluated on concrete
reachable states: `stOpenDemo` just after an open, and its successors in
which the idle timer (id 3) and then the deadline timer (id 4) are the
pending heartbeat timers. -/
theorem c2_heartbeat_witness :
    (∃ tid, (step (runFromInit "u" []).1 Event.wsOpenEv).1.pingTimeout = tid ∧
        Timer.mk tid 10000 TimerAction.heartbeatIdle
          ∈ (step (runFromInit "u" []).1 Event.wsOpenEv).1.timers ∧
        Effect.setTimer tid 10000 ∈ (step (runFromInit "u" []).1 Event.wsOpenEv).2)
    ∧ (step stOpenDemo Event.wsPongEv =
        ({ stOpenDemo with
             timers := stOpenDemo.timers.filter (fun t => t.id != stOpenDemo.pingTimeout)
               ++ [Timer.mk stOpenDemo.nextTimerId 10000 TimerAction.heartbeatIdle],
             pingTimeout := stOpenDemo.nextTimerId,
             nextTimerId := stOpenDemo.nextTimerId + 1 },
         [Effect.clearTimer stOpenDemo.pingTimeout,
          Effect.setTimer stOpenDemo.nextTimerId 10000]))
    ∧ (step (runEvents stOpenDemo [Event.wsPongEv]).1 (Event.timerEv 3) =
        ({ (runEvents stOpenDemo [Event.wsPongEv]).1 with
             timers := (runEvents stOpenDemo [Event.wsPongEv]).1.timers.filter
                 (fun t => t.id != 3)
               ++ [Timer.mk (runEvents stOpenDemo [Event.wsPongEv]).1.nextTimerId 1000
                     TimerAction.pongDeadline],
             pingTimeout := (runEvents stOpenDemo [Event.wsPongEv]).1.nextTimerId,
             nextTimerId := (runEvents stOpenDemo [Event.wsPongEv]).1.nextTimerId + 1 },
         [Effect.wsPing (runEvents stOpenDemo [Event.wsPongEv]).1.wsGen,
          Effect.setTimer (runEvents stOpenDemo [Event.wsPongEv]).1.nextTimerId 1000]))
    ∧ (step (runEvents stOpenDemo [Event.wsPongEv, Event.timerEv 3]).1 (Event.timerEv 4) =
        ({ (runEvents stOpenDemo [Event.wsPongEv, Event.timerEv 3]).1 with
             timers := (runEvents stOpenDemo [Event.wsPongEv, Event.timerEv 3]).1.timers.filter
                 (fun t => t.id != 4),
             readyState := ReadyState.closing },
         [Effect.wsTerminate
            (runEvents stOpenDemo [Event.wsPongEv, Event.timerEv 3]).1.wsGen])) :=
  ⟨(c2_heartbeat (runFromInit "u" []).1).1 (by decide) (by decide),
   (c2_heartbeat stOpenDemo).2.1 (by decide),
   (c2_heartbeat (runEvents stOpenDemo [Event.wsPongEv]).1).2.2.1 3 (by decide),
   (c2_heartbeat (runEvents stOpenDemo [Event.wsPongEv, Event.timerEv 3]).1).2.2.2 4 (by decide)⟩

/-! ## Claim C3 -/

lemma joinOp_wsGen (st : SocketState) (cid : Nat) : (joinOp st cid).1.wsGen = st.wsGen := by
  unfold joinOp
  split
  · rfl
  · split <;> rfl

lemma joinOp_isOpen (st : SocketState) (cid : Nat) : (joinOp st cid).1.isOpen = st.isOpen := by
  unfold joinOp
  split
  · rfl
  · split <;> rfl

lemma joinOp_fields (st : SocketState) (cid j : Nat) (ch : ChannelObj)
    (h : st.chanObjs[j]? = some ch) :
    ∃ ch', (joinOp st cid).1.chanObjs[j]? = some ch' ∧ ch'.channel = ch.channel
      ∧ ch'.param = ch.param ∧ ch'.exclusiveKey = ch.exclusiveKey := by
  unfold joinOp
  split
  · exact ⟨ch, h, rfl, rfl, rfl⟩
  · split
    · exact ⟨ch, h, rfl, rfl, rfl⟩
    · rename_i ch0 hch0
      by_cases hj : cid = j
      · subst hj
        rw [h] at hch0
        cases hch0
        refine ⟨{ ch with joinTimeout := st.nextTimerId }, ?_, rfl, rfl, rfl⟩
        simp only [setTimeoutOp]
        rw [List.getElem?_set_self]
        exact (List.getElem?_eq_some_iff.mp h).1
      · refine ⟨ch, ?_, rfl, rfl, rfl⟩
        simp only [setTimeoutOp]
        rw [List.getElem?_set_ne hj]
        exact h

lemma joinAllOp_mem (cids : List Nat) (st : SocketState) (cid : Nat) (ch : ChannelObj)
    (ho : st.isOpen = true) (hcid : cid ∈ cids) (hch : st.chanObjs[cid]? = some ch) :
    Effect.sendFrame st.wsGen
      (OutgoingMessage.joinChannelMsg ch.channel ch.param ch.exclusiveKey)
      ∈ (joinAllOp st cids).2 := by
  induction cids generalizing st ch with
  | nil => cases hcid
  | cons c rest ih =>
    simp only [joinAllOp, List.mem_append]
    rcases List.mem_cons.mp hcid with hc | hc
    · subst hc
      left
      unfold joinOp
      rw [ho]
      simp only [Bool.not_true]
      rw [hch]
      simp
    · right
      obtain ⟨ch', hch', h1, h2, h3⟩ := joinOp_fields st c cid ch hch
      have := ih (joinOp st c).1 ch' (by rw [joinOp_isOpen]; exact ho) hc hch'
      rw [joinOp_wsGen, h1, h2, h3] at this
      exact this

/-- Claim C3: (i) `Channel._join` with the connection not open does
nothing: no frame, no timer, the state is unchanged; (ii) with the
connection open it sends a `join_channel` frame carrying
`(channel, param, exclusiveKey)` and schedules a retry of itself after
1000 ms (1 time unit), with the same constant delay on every invocation
(no backoff, no retry cap); (iii) when the retry timer fires it runs
`_join` itself again (so the cycle repeats indefinitely until the timer
is cancelled, which only the join acknowledgment of claim C4 does);
(iv) on every transport `open`, a join frame is sent for every channel in
the registry. -/
theorem c3_join_behavior (st : SocketState) (cid : Nat) :
    (st.isOpen = false → joinOp st cid = (st, []))
    ∧ (∀ ch, st.isOpen = true → st.chanObjs[cid]? = some ch →
      joinOp st cid =
        ({ st with
             chanObjs := st.chanObjs.set cid { ch with joinTimeout := st.nextTimerId },
             timers := st.timers ++ [Timer.mk st.nextTimerId 1000 (TimerAction.joinRetry cid)],
             nextTimerId := st.nextTimerId + 1 },
         [Effect.sendFrame st.wsGen
            (OutgoingMessage.joinChannelMsg ch.channel ch.param ch.exclusiveKey),
          Effect.setTimer st.nextTimerId 1000]))
    ∧ (∀ tid, st.timers.find? (fun t => t.id == tid)
          = some (Timer.mk tid 1000 (TimerAction.joinRetry cid)) →
      step st (Event.timerEv tid) = joinOp (clearTimeoutOp st tid) cid)
    ∧ (∀ key ch, st.wsCreated = true → st.readyState = ReadyState.connecting →
      (key, cid) ∈ st.channels → st.chanObjs[cid]? = some ch →
      Effect.sendFrame st.wsGen
          (OutgoingMessage.joinChannelMsg ch.channel ch.param ch.exclusiveKey)
        ∈ (step st Event.wsOpenEv).2) := by
  refine ⟨?_, ?_, ?_, ?_⟩
  · intro ho
    unfold joinOp
    rw [ho]
    simp
  · intro ch ho hch
    unfold joinOp
    rw [ho]
    simp only [Bool.not_true]
    rw [hch]
    simp [setTimeoutOp]
  · intro tid hfind
    simp [step, fireTimerOp, hfind, runTimerAction]
  · intro key ch hw hr hmem hch
    have hin : cid ∈ ({ st with readyState := ReadyState.opened } : SocketState).channels.map
        Prod.snd := List.mem_map.mpr ⟨(key, cid), hmem, rfl⟩
    have ho : ({ st with readyState := ReadyState.opened } : SocketState).isOpen = true := by
      simp [SocketState.isOpen, hw]
    have := joinAllOp_mem _ _ cid ch ho hin hch
    simp only [hw] at this
    simp only [step, hw, hr, and_self, reduceIte, handleOpenEv, List.mem_append]
    exact Or.inl (Or.inl this)

/-- Witness for C3: the four join facts on concrete reachable states: a
closed-transport state (just after a transient close) for (i), the open
demo state for (ii) and (iii) (its pending join retry timer is id 2), and
a reconnecting state with a registered channel for (iv). -/
theorem c3_join_behavior_witness :
    (joinOp (runEvents stOpenDemo [Event.apiClose, Event.wsCloseEv 1000 ""]).1 0
      = ((runEvents stOpenDemo [Event.apiClose, Event.wsCloseEv 1000 ""]).1, []))
    ∧ (joinOp stOpenDemo 0 =
        ({ stOpenDemo with
             chanObjs := stOpenDemo.chanObjs.set 0
               { (stOpenDemo.chanObjs.get ⟨0, by decide⟩) with
                   joinTimeout := stOpenDemo.nextTimerId },
             timers := stOpenDemo.timers
               ++ [Timer.mk stOpenDemo.nextTimerId 1000 (TimerAction.joinRetry 0)],
             nextTimerId := stOpenDemo.nextTimerId + 1 },
         [Effect.sendFrame stOpenDemo.wsGen (OutgoingMessage.joinChannelMsg "a" "" "k"),
          Effect.setTimer stOpenDemo.nextTimerId 1000]))
    ∧ (step stOpenDemo (Event.timerEv 2) = joinOp (clearTimeoutOp stOpenDemo 2) 0)
    ∧ (Effect.sendFrame (runEvents stOpenDemo [Event.wsCloseEv 1001 ""]).1.wsGen
          (OutgoingMessage.joinChannelMsg "a" "" "k")
        ∈ (step (runEvents stOpenDemo [Event.wsCloseEv 1001 ""]).1 Event.wsOpenEv).2) :=
  ⟨(c3_join_behavior (runEvents stOpenDemo [Event.apiClose, Event.wsCloseEv 1000 ""]).1 0).1
      (by decide),
   (c3_join_behavior stOpenDemo 0).2.1
      { channel := "a", param := "", exclusiveKey := "k", joinTimeout := 2 }
      (by decide) (by decide),
   (c3_join_behavior stOpenDemo 0).2.2.1 2 (by decide),
   (c3_join_behavior (runEvents stOpenDemo [Event.wsCloseEv 1001 ""]).1 0).2.2.2
      (channelKey "a" "")
      { channel := "a", param := "", exclusiveKey := "k", joinTimeout := 2 }
      (by decide) (by decide) (by decide) (by decide)⟩

/-! ## Claim C5 -/

/-- Claim C5: an inbound frame whose `(channel, param)` pair matches no
entry of the registry has no observable effect: the message handler
leaves the state unchanged and emits nothing (the `?.` optional chaining
in the source has no throwing path, which the embedding reflects by being
total with the identity result). -/
theorem c5_unmatched_frame_dropped (st : SocketState) (m : IncomingMessage)
    (h : lookupKey st.channels (channelKey m.chan m.chanParam) = none) :
    step st (Event.wsMessageEv m) = (st, []) := by
  simp only [step]
  split
  · unfold handleMessageEv
    rw [h]
  · rfl

/-- Witness for C5: a frame for the unregistered pair `("b", "")` on the
open demo state (whose registry holds only `("a", "")`) is dropped. -/
theorem c5_unmatched_frame_dropped_witness :
    step stOpenDemo (Event.wsMessageEv (IncomingMessage.serverBroadcast "b" "" [])) =
      (stOpenDemo, []) :=
  c5_unmatched_frame_dropped stOpenDemo (IncomingMessage.serverBroadcast "b" "" []) (by decide)

/-! ## Claim C7 -/

/-- Claim C7: `connect()` with the current transport CONNECTING or OPEN
fails synchronously with the `"Socket is already open"` error and has no
other effect (the error return carries no state change and no effects);
otherwise it creates a fresh transport handle of the next generation,
bound to the configured url with a 10000 ms handshake timeout. -/
theorem c7_open_guard (st : SocketState) :
    (st.wsCreated = true →
      (st.readyState = ReadyState.connecting ∨ st.readyState = ReadyState.opened) →
      connectOp st = Except.error "Socket is already open")
    ∧ (¬ (st.wsCreated = true ∧
          (st.readyState = ReadyState.connecting ∨ st.readyState = ReadyState.opened)) →
      connectOp st =
        Except.ok ({ st with wsCreated := true, wsGen := st.wsGen + 1,
                             readyState := ReadyState.connecting },
                   [Effect.wsNew (st.wsGen + 1) st.url 10000])) := by
  constructor
  · intro hw hr
    simp [connectOp, hw, hr]
  · intro hguard
    simp [connectOp, hguard, connectRaw]

/-- Witness for C7: `connect()` on the open demo state fails with the
"already open" error; on the same state after a terminal close it creates
the generation-2 handle. -/
theorem c7_open_guard_witness :
    connectOp stOpenDemo = Except.error "Socket is already open"
    ∧ connectOp (runEvents stOpenDemo [Event.wsCloseEv 1000 ""]).1 =
        Except.ok ({ (runEvents stOpenDemo [Event.wsCloseEv 1000 ""]).1 with
                       wsCreated := true,
                       wsGen := (runEvents stOpenDemo [Event.wsCloseEv 1000 ""]).1.wsGen + 1,
                       readyState := ReadyState.connecting },
                   [Effect.wsNew ((runEvents stOpenDemo [Event.wsCloseEv 1000 ""]).1.wsGen + 1)
                      (runEvents stOpenDemo [Event.wsCloseEv 1000 ""]).1.url 10000]) :=
  ⟨(c7_open_guard stOpenDemo).1 (by decide) (Or.inr (by decide)),
   (c7_open_guard (runEvents stOpenDemo [Event.wsCloseEv 1000 ""]).1).2 (by decide)⟩

/-! ## Claim C9 -/

/-- Claim C9: `Channel.quit()` sends a `disconnect_channel` frame carrying
the channel's `(channel, param, exclusiveKey)` and removes the channel's
key from the registry; it does not cancel a still-pending join retry
timer (the timer list is untouched), and no other state changes: the
heap, the transport fields, `_pingTimeout` and the timer-id counter all
stay as they were. -/
theorem c9_quit (st : SocketState) (cid : Nat) (ch : ChannelObj)
    (hch : st.chanObjs[cid]? = some ch) :
    (quitOp st cid).2 =
      [Effect.sendFrame st.wsGen
        (OutgoingMessage.disconnectChannelMsg ch.channel ch.param ch.exclusiveKey)]
    ∧ (quitOp st cid).1.channels = deleteKey st.channels (channelKey ch.channel ch.param)
    ∧ (quitOp st cid).1.timers = st.timers
    ∧ (quitOp st cid).1.chanObjs = st.chanObjs
    ∧ (quitOp st cid).1.url = st.url
    ∧ (quitOp st cid).1.wsCreated = st.wsCreated
    ∧ (quitOp st cid).1.wsGen = st.wsGen
    ∧ (quitOp st cid).1.readyState = st.readyState
    ∧ (quitOp st cid).1.pingTimeout = st.pingTimeout
    ∧ (quitOp st cid).1.nextTimerId = st.nextTimerId := by
  unfold quitOp
  rw [hch]
  exact ⟨rfl, rfl, rfl, rfl, rfl, rfl, rfl, rfl, rfl, rfl⟩

/-- Witness for C9: quitting the registered channel of the open demo state
(whose join retry timer 2 is still pending) sends the disconnect frame,
empties the registry, and leaves the pending timers — including the join
retry — in place. -/
theorem c9_quit_witness :
    (quitOp stOpenDemo 0).2 =
      [Effect.sendFrame stOpenDemo.wsGen
        (OutgoingMessage.disconnectChannelMsg "a" "" "k")]
    ∧ (quitOp stOpenDemo 0).1.channels = deleteKey stOpenDemo.channels (channelKey "a" "")
    ∧ (quitOp stOpenDemo 0).1.timers = stOpenDemo.timers
    ∧ (quitOp stOpenDemo 0).1.chanObjs = stOpenDemo.chanObjs
    ∧ (quitOp stOpenDemo 0).1.url = stOpenDemo.url
    ∧ (quitOp stOpenDemo 0).1.wsCreated = stOpenDemo.wsCreated
    ∧ (quitOp stOpenDemo 0).1.wsGen = stOpenDemo.wsGen
    ∧ (quitOp stOpenDemo 0).1.readyState = stOpenDemo.readyState
    ∧ (quitOp stOpenDemo 0).1.pingTimeout = stOpenDemo.pingTimeout
    ∧ (quitOp stOpenDemo 0).1.nextTimerId = stOpenDemo.nextTimerId :=
  c9_quit stOpenDemo 0 { channel := "a", param := "", exclusiveKey := "k", joinTimeout := 2 }
    (by decide)

/-! ## Claim C6 -/

/-- Registry well-formedness: every registry entry points at a live heap
object whose identity fields produce exactly that key.  It holds in every
reachable state (the registry is only ever extended by `channelOp`, which
registers the object it just constructed) and is the hypothesis under
which the registry lookups of C6 are sound. -/
def RegWF (st : SocketState) : Prop :=
  ∀ key cid, (key, cid) ∈ st.channels →
    ∃ ch, st.chanObjs[cid]? = some ch ∧ key = channelKey ch.channel ch.param

lemma lookupKey_mem {l : List (String × Nat)} {k : String} {v : Nat}
    (h : lookupKey l k = some v) : (k, v) ∈ l := by
  induction l with
  | nil => cases h
  | cons kv r ih =>
    obtain ⟨k', v'⟩ := kv
    unfold lookupKey at h
    by_cases hk : k' = k
    · rw [if_pos hk] at h
      cases h
      subst hk
      exact List.mem_cons_self _ _
    · rw [if_neg hk] at h
      exact List.mem_cons_of_mem _ (ih h)

lemma lookupKey_append_self {l : List (String × Nat)} {k : String} {v : Nat}
    (h : lookupKey l k = none) : lookupKey (l ++ [(k, v)]) k = some v := by
  induction l with
  | nil => simp [lookupKey]
  | cons kv r ih =>
    obtain ⟨k', v'⟩ := kv
    unfold lookupKey at h ⊢
    by_cases hk : k' = k
    · rw [if_pos hk] at h
      cases h
    · rw [if_neg hk] at h
      simp only [List.cons_append, lookupKey]
      rw [if_neg hk]
      exact ih h

lemma joinOp_channels (st : SocketState) (cid : Nat) :
    (joinOp st cid).1.channels = st.channels := by
  unfold joinOp
  split
  · rfl
  · split <;> rfl

lemma joinOp_chanObjs_length (st : SocketState) (cid : Nat) :
    (joinOp st cid).1.chanObjs.length = st.chanObjs.length := by
  unfold joinOp
  split
  · rfl
  · split
    · rfl
    · simp [setTimeoutOp]

lemma joinOp_RegWF (st : SocketState) (cid : Nat) (h : RegWF st) :
    RegWF (joinOp st cid).1 := by
  intro key cid' hmem
  rw [joinOp_channels] at hmem
  obtain ⟨ch, hch, hkey⟩ := h key cid' hmem
  obtain ⟨ch', hch', h1, h2, _⟩ := joinOp_fields st cid cid' ch hch
  exact ⟨ch', hch', by rw [hkey, h1, h2]⟩

lemma channelOp_RegWF (st : SocketState) (name param xkey : String) (h : RegWF st) :
    RegWF (channelOp st name param xkey).1.1 := by
  unfold channelOp
  split
  · exact h
  · rename_i hlk
    apply joinOp_RegWF
    intro key cid' hmem
    simp only [List.mem_append, List.mem_singleton] at hmem
    rcases hmem with hmem | hmem
    · obtain ⟨ch, hch, hkey⟩ := h key cid' hmem
      refine ⟨ch, ?_, hkey⟩
      rw [List.getElem?_append_left (List.getElem?_eq_some_iff.mp hch).1]
      exact hch
    · have hk : key = channelKey name param := congrArg Prod.fst hmem
      have hc : cid' = st.chanObjs.length := congrArg Prod.snd hmem
      subst hk hc
      refine ⟨⟨name, param, xkey, 0⟩, ?_, rfl⟩
      rw [List.getElem?_append_right (Nat.le_refl _)]
      simp

/-- After `channelOp`, the requested key resolves to the returned heap
index. -/
lemma channelOp_lookup (st : SocketState) (name param xkey : String) :
    lookupKey (channelOp st name param xkey).1.1.channels (channelKey name param)
      = some (channelOp st name param xkey).2 := by
  unfold channelOp
  split
  · assumption
  · rw [joinOp_channels]
    exact lookupKey_append_self (by assumption)

/-- After `channelOp`, the returned heap index is a live object. -/
lemma channelOp_lt_length (st : SocketState) (name param xkey : String) (h : RegWF st) :
    (channelOp st name param xkey).2 < (channelOp st name param xkey).1.1.chanObjs.length := by
  unfold channelOp
  split
  · rename_i cid hlk
    obtain ⟨ch, hch, _⟩ := h _ cid (lookupKey_mem hlk)
    exact (List.getElem?_eq_some_iff.mp hch).1
  · rw [joinOp_chanObjs_length]
    simp

/-- Behavior of `channelOp` when the key is already registered: return the existing
entry, change nothing. -/
lemma channelOp_found {st : SocketState} {name param : String} {cid : Nat}
    (h : lookupKey st.channels (channelKey name param) = some cid) (xkey : String) :
    channelOp st name param xkey = ((st, []), cid) := by
  unfold channelOp
  rw [h]

/-- Behavior of `channelOp` when the key is fresh: construct, register, join. -/
lemma channelOp_fresh {st : SocketState} {name param : String}
    (h : lookupKey st.channels (channelKey name param) = none) (xkey : String) :
    channelOp st name param xkey =
      (joinOp
        { st with chanObjs := st.chanObjs ++ [⟨name, param, xkey, 0⟩],
                  channels := st.channels ++ [(channelKey name param, st.chanObjs.length)] }
        st.chanObjs.length,
       st.chanObjs.length) := by
  unfold channelOp
  rw [h]

/-- Claim C6: under registry well-formedness, requesting a channel twice
with the same `(name, param)` pair returns the same channel object (the
identical heap index — no new `Channel` is constructed), changes nothing
and performs no effect (in particular no new join is initiated); a request
with a different `param` yields a distinct channel object. -/
theorem c6_channel_identity (st : SocketState) (name p1 p2 k1 k2 k3 : String)
    (hWF : RegWF st) (hp : p1 ≠ p2) :
    ((channelOp (channelOp st name p1 k1).1.1 name p1 k2).1.1
        = (channelOp st name p1 k1).1.1
      ∧ (channelOp (channelOp st name p1 k1).1.1 name p1 k2).1.2 = []
      ∧ (channelOp (channelOp st name p1 k1).1.1 name p1 k2).2
        = (channelOp st name p1 k1).2)
    ∧ (channelOp (channelOp st name p1 k1).1.1 name p2 k3).2
        ≠ (channelOp st name p1 k1).2 := by
  have hlk1 := channelOp_lookup st name p1 k1
  have hWF1 := channelOp_RegWF st name p1 k1 hWF
  have hlt1 := channelOp_lt_length st name p1 k1 hWF
  constructor
  · rw [channelOp_found hlk1 k2]
    exact ⟨rfl, rfl, rfl⟩
  · cases hlk2 :
        lookupKey (channelOp st name p1 k1).1.1.channels (channelKey name p2) with
    | none =>
      rw [channelOp_fresh hlk2 k3]
      intro hcontra
      rw [← hcontra] at hlt1
      exact absurd hlt1 (Nat.lt_irrefl _)
    | some cid2 =>
      rw [channelOp_found hlk2 k3]
      intro hcontra
      obtain ⟨ch1, hch1, hkey1⟩ :=
        hWF1 (channelKey name p1) (channelOp st name p1 k1).2 (lookupKey_mem hlk1)
      obtain ⟨ch2, hch2, hkey2⟩ :=
        hWF1 (channelKey name p2) cid2 (lookupKey_mem hlk2)
      rw [show cid2 = (channelOp st name p1 k1).2 from hcontra, hch1] at hch2
      cases hch2
      exact hp ((channelKey_inj (hkey1.trans hkey2.symm)).2)

/-- Witness for C6: on the concrete reachable state `stOpenDemo`
(registry: `("a", "")` at heap index 0), requesting `("a", "")` again
returns index 0 with no state change and no effects, and requesting
`("a", "x")` yields a different index. -/
theorem c6_channel_identity_witness :
    ((channelOp (channelOp stOpenDemo "a" "" "K1").1.1 "a" "" "K2").1.1
        = (channelOp stOpenDemo "a" "" "K1").1.1
      ∧ (channelOp (channelOp stOpenDemo "a" "" "K1").1.1 "a" "" "K2").1.2 = []
      ∧ (channelOp (channelOp stOpenDemo "a" "" "K1").1.1 "a" "" "K2").2
        = (channelOp stOpenDemo "a" "" "K1").2)
    ∧ (channelOp (channelOp stOpenDemo "a" "" "K1").1.1 "a" "x" "K3").2
        ≠ (channelOp stOpenDemo "a" "" "K1").2 :=
  c6_channel_identity stOpenDemo "a" "" "x" "K1" "K2" "K3"
    (by
      intro key cid hmem
      rw [show stOpenDemo.channels = [(channelKey "a" "", 0)] by decide] at hmem
      have h := List.mem_singleton.mp hmem
      have hk : key = channelKey "a" "" := congrArg Prod.fst h
      have hc : cid = 0 := congrArg Prod.snd h
      subst hk hc
      exact ⟨{ channel := "a", param := "", exclusiveKey := "k", joinTimeout := 2 },
        by decide, rfl⟩)
    (by decide)

/-! ## Claim C4 -/

/-- The reconnect race used to refute the claim C4 as stated: the channel
is created on an open connection (join sent, retry timer 2 armed), the
connection closes transiently and reopens within one time unit (a second
join is sent, retry timer 3 armed, overwriting — without clearing — the
`_joinTimeout` handle), and the server acknowledges the join. -/
def c4Trace : List Event :=
  [Event.wsOpenEv, Event.apiChannel "a" "" "", Event.wsCloseEv 1001 "r",
   Event.wsOpenEv, Event.wsMessageEv (IncomingMessage.joinResult "a" "" 1 "hi")]

/-- Counterexample to claim C4 as stated.  The claim says a `join_result`
cancels the pending join retry timer, *so no further join frames are sent
for that channel until the next reconnect*.  In the `c4Trace` state the
acknowledgment has been delivered (exactly one "join" notification with
the welcome text `"hi"` is in the trace) and `clearTimeout` ran — yet the
retry timer of the *previous* connection (id 2) is still pending, because
`_join` overwrites the `_joinTimeout` handle without clearing it on
rejoin.  When that stale timer fires — with no reconnect in between — one
more `join_channel` frame is sent (and yet another retry is armed). -/
theorem c4_counterexample :
    (Effect.notify (Notification.chanJoin 0 "hi") ∈ (runFromInit "u" c4Trace).2)
    ∧ Timer.mk 2 1000 (TimerAction.joinRetry 0) ∈ (runFromInit "u" c4Trace).1.timers
    ∧ (runEvents (runFromInit "u" c4Trace).1 [Event.timerEv 2]).2 =
        [Effect.sendFrame 2 (OutgoingMessage.joinChannelMsg "a" "" ""),
         Effect.setTimer 5 1000] := by
  decide

/-- Claim C4 as amended: receiving a `join_result` frame for a channel
notifies its "join" subscribers with the frame's welcome text exactly once
per frame, and cancels the join retry timer whose handle is currently
stored in the channel's `_joinTimeout` field — the most recently scheduled
one.  (As stated the claim is false — see the counterexample: a retry
timer leaked by a reconnect within one time unit of a join send survives
the acknowledgment and can send one further join frame before the next
reconnect.) -/
theorem c4_join_result_amended (st : SocketState) (cid : Nat) (ch : ChannelObj)
    (c p w : String) (n : Nat) (hch : st.chanObjs[cid]? = some ch) :
    onMessageOp st cid (IncomingMessage.joinResult c p n w) =
      ({ st with timers := st.timers.filter (fun t => t.id != ch.joinTimeout) },
       [Effect.notify (Notification.chanJoin cid w), Effect.clearTimer ch.joinTimeout]) := by
  unfold onMessageOp
  rw [hch]
  rfl

/-- Witness for the amended C4: the `join_result` delivered at the end of
`c4Trace` (channel 0, `_joinTimeout` = 3) notifies "join" with `"hi"` once
and cancels timer 3. -/
theorem c4_join_result_amended_witness :
    onMessageOp (runFromInit "u" (c4Trace.take 4)).1 0
        (IncomingMessage.joinResult "a" "" 1 "hi") =
      ({ (runFromInit "u" (c4Trace.take 4)).1 with
           timers := (runFromInit "u" (c4Trace.take 4)).1.timers.filter
             (fun t => t.id != 3) },
       [Effect.notify (Notification.chanJoin 0 "hi"), Effect.clearTimer 3]) :=
  c4_join_result_amended (runFromInit "u" (c4Trace.take 4)).1 0
    { channel := "a", param := "", exclusiveKey := "", joinTimeout := 3 }
    "a" "" "hi" 1 (by decide)

/-! ## Claim C8 -/

/-- A join request for the identity `(c, p, k)` appears in the effect
trace. -/
def joinSentFor (effs : List Effect) (c p k : String) : Prop :=
  ∃ g, Effect.sendFrame g (OutgoingMessage.joinChannelMsg c p k) ∈ effs

/-- The provable relation between the effect trace and the channel heap: a
join request for `(c, p, k)` has been sent at least once exactly when some
channel object with that identity has had its `_joinTimeout` handle
assigned (real timer ids are ≥ 1, and the field is never reset). -/
def JoinLink (st : SocketState) (effs : List Effect) : Prop :=
  ∀ c p k, joinSentFor effs c p k ↔
    ∃ ch ∈ st.chanObjs,
      ch.channel = c ∧ ch.param = p ∧ ch.exclusiveKey = k ∧ ch.joinTimeout ≠ 0

lemma joinLink_neutral {st st' : SocketState} {effs fx : List Effect}
    (hobjs : st'.chanObjs = st.chanObjs)
    (hfx : ∀ c p k g, Effect.sendFrame g (OutgoingMessage.joinChannelMsg c p k) ∉ fx)
    (h : JoinLink st effs) : JoinLink st' (effs ++ fx) := by
  intro c p k
  rw [show st'.chanObjs = st.chanObjs from hobjs] at *
  constructor
  · rintro ⟨g, hg⟩
    rcases List.mem_append.mp hg with hg | hg
    · exact (h c p k).mp ⟨g, hg⟩
    · exact absurd hg (hfx c p k g)
  · intro hx
    obtain ⟨g, hg⟩ := (h c p k).mpr hx
    exact ⟨g, List.mem_append.mpr (Or.inl hg)⟩

lemma joinLink_congr {st st' : SocketState} {effs : List Effect}
    (hobjs : st'.chanObjs = st.chanObjs) (h : JoinLink st effs) : JoinLink st' effs := by
  have h2 : JoinLink st' (effs ++ []) := joinLink_neutral hobjs (by simp) h
  simpa using h2

lemma joinOp_tid (st : SocketState) (cid : Nat) :
    st.nextTimerId ≤ (joinOp st cid).1.nextTimerId := by
  unfold joinOp
  split
  · exact Nat.le_refl _
  · split
    · exact Nat.le_refl _
    · simp [setTimeoutOp]

lemma joinLink_joinOp {st : SocketState} {effs : List Effect} (cid : Nat)
    (hn : 1 ≤ st.nextTimerId) (h : JoinLink st effs) :
    JoinLink (joinOp st cid).1 (effs ++ (joinOp st cid).2) := by
  unfold joinOp
  split
  · exact joinLink_neutral rfl (by simp) h
  · split
    · exact joinLink_neutral rfl (by simp) h
    · rename_i ch hch
      have hjt : st.nextTimerId ≠ 0 := Nat.one_le_iff_ne_zero.mp hn
      have hlt : cid < st.chanObjs.length := (List.getElem?_eq_some_iff.mp hch).1
      intro c p k
      constructor
      · rintro ⟨g, hg⟩
        rcases List.mem_append.mp hg with hg | hg
        · obtain ⟨ch'', hmem, h1, h2, h3, h4⟩ := (h c p k).mp ⟨g, hg⟩
          obtain ⟨j, hj, hget⟩ := List.mem_iff_getElem.mp hmem
          by_cases hjc : j = cid
          · subst hjc
            have hcc : ch'' = ch := by
              have h' := List.getElem?_eq_some_iff.mpr ⟨hj, hget⟩
              rw [hch] at h'
              cases h'
              rfl
            subst hcc
            refine ⟨{ ch'' with joinTimeout := st.nextTimerId }, ?_, h1, h2, h3, hjt⟩
            simp only [setTimeoutOp]
            exact List.getElem?_mem (List.getElem?_set_self hlt)
          · refine ⟨ch'', ?_, h1, h2, h3, h4⟩
            simp only [setTimeoutOp]
            exact List.getElem?_mem
              (by rw [List.getElem?_set_ne (fun hx => hjc hx.symm)]
                  exact List.getElem?_eq_some_iff.mpr ⟨hj, hget⟩)
        · simp only [List.mem_cons, List.not_mem_nil, or_false] at hg
          rcases hg with hg | hg
          · obtain ⟨hgen, hmsg⟩ := Effect.sendFrame.inj hg
            obtain ⟨hc, hp, hk⟩ := OutgoingMessage.joinChannelMsg.inj hmsg.symm
            refine ⟨{ ch with joinTimeout := st.nextTimerId }, ?_, hc, hp, hk, hjt⟩
            simp only [setTimeoutOp]
            exact List.getElem?_mem (List.getElem?_set_self hlt)
          · exact absurd hg (by simp)
      · rintro ⟨ch', hmem, h1, h2, h3, h4⟩
        simp only [setTimeoutOp] at hmem
        obtain ⟨j, hj, hget⟩ := List.mem_iff_getElem.mp hmem
        by_cases hjc : j = cid
        · subst hjc
          have hcc : ch' = { ch with joinTimeout := st.nextTimerId } := by
            have h' := List.getElem?_eq_some_iff.mpr ⟨hj, hget⟩
            rw [List.getElem?_set_self hlt] at h'
            cases h'
            rfl
          subst hcc
          have hc1 : ch.channel = c := h1
          have hc2 : ch.param = p := h2
          have hc3 : ch.exclusiveKey = k := h3
          refine ⟨st.wsGen, List.mem_append.mpr (Or.inr ?_)⟩
          rw [hc1, hc2, hc3]
          exact List.mem_cons_self _ _
        · have h' := List.getElem?_eq_some_iff.mpr ⟨hj, hget⟩
          rw [List.getElem?_set_ne (fun hx => hjc hx.symm)] at h'
          obtain ⟨g, hg⟩ := (h c p k).mpr ⟨ch', List.getElem?_mem h', h1, h2, h3, h4⟩
          exact ⟨g, List.mem_append.mpr (Or.inl hg)⟩

lemma joinLink_joinAllOp (cids : List Nat) (st : SocketState) (effs : List Effect)
    (hn : 1 ≤ st.nextTimerId) (h : JoinLink st effs) :
    JoinLink (joinAllOp st cids).1 (effs ++ (joinAllOp st cids).2)
      ∧ 1 ≤ (joinAllOp st cids).1.nextTimerId := by
  induction cids generalizing st effs with
  | nil =>
    refine ⟨?_, hn⟩
    show JoinLink st (effs ++ [])
    simpa using h
  | cons c rest ih =>
    have h1 := joinLink_joinOp c hn h
    have hn1 : 1 ≤ (joinOp st c).1.nextTimerId := le_trans hn (joinOp_tid st c)
    have h2 := ih (joinOp st c).1 (effs ++ (joinOp st c).2) hn1 h1
    simp only [joinAllOp]
    constructor
    · rw [← List.append_assoc]
      exact h2.1
    · exact h2.2

lemma joinLink_onMessageOp (st : SocketState) (cid : Nat) (m : IncomingMessage)
    (effs : List Effect) (h : JoinLink st effs) :
    JoinLink (onMessageOp st cid m).1 (effs ++ (onMessageOp st cid m).2)
      ∧ (onMessageOp st cid m).1.nextTimerId = st.nextTimerId := by
  unfold onMessageOp
  split
  · exact ⟨joinLink_neutral rfl (by simp) h, rfl⟩
  · split
    · exact ⟨joinLink_neutral rfl (by simp) h, rfl⟩
    · exact ⟨joinLink_neutral rfl (by simp) h, rfl⟩
    · exact ⟨joinLink_neutral rfl (by simp) h, rfl⟩
    · exact ⟨joinLink_neutral rfl (by simp) h, rfl⟩

lemma joinLink_appendObj {st st' : SocketState} {effs : List Effect} {n p k : String}
    (hobjs : st'.chanObjs = st.chanObjs ++ [⟨n, p, k, 0⟩]) (h : JoinLink st effs) :
    JoinLink st' effs := by
  intro c pp kk
  rw [hobjs]
  constructor
  · intro hs
    obtain ⟨ch, hmem, h1, h2, h3, h4⟩ := (h c pp kk).mp hs
    exact ⟨ch, List.mem_append.mpr (Or.inl hmem), h1, h2, h3, h4⟩
  · rintro ⟨ch, hmem, h1, h2, h3, h4⟩
    rcases List.mem_append.mp hmem with hm | hm
    · exact (h c pp kk).mpr ⟨ch, hm, h1, h2, h3, h4⟩
    · rw [List.mem_singleton] at hm
      subst hm
      exact absurd rfl h4

/-- One step of the event loop preserves the join-send/heap relation and
the positivity of the timer-id counter. -/
lemma c8inv_step (st : SocketState) (e : Event) (effs : List Effect)
    (hn : 1 ≤ st.nextTimerId) (h : JoinLink st effs) :
    JoinLink (step st e).1 (effs ++ (step st e).2)
      ∧ 1 ≤ (step st e).1.nextTimerId := by
  cases e with
  | wsOpenEv =>
    simp only [step]
    split
    · unfold handleOpenEv
      have h0 : JoinLink { st with readyState := ReadyState.opened } effs :=
        joinLink_congr rfl h
      obtain ⟨hJ, hN⟩ := joinLink_joinAllOp
        (({ st with readyState := ReadyState.opened } : SocketState).channels.map Prod.snd)
        { st with readyState := ReadyState.opened } effs hn h0
      constructor
      · have hstep : JoinLink
            (heartbeatOp (joinAllOp { st with readyState := ReadyState.opened }
              (({ st with readyState := ReadyState.opened } : SocketState).channels.map
                Prod.snd)).1).1
            ((effs ++ (joinAllOp { st with readyState := ReadyState.opened }
              (({ st with readyState := ReadyState.opened } : SocketState).channels.map
                Prod.snd)).2)
              ++ ([Effect.notify Notification.sockOpen]
                ++ (heartbeatOp (joinAllOp { st with readyState := ReadyState.opened }
                  (({ st with readyState := ReadyState.opened } : SocketState).channels.map
                    Prod.snd)).1).2)) :=
          joinLink_neutral rfl (by simp [heartbeatOp, setTimeoutOp]) hJ
        simp only [List.append_assoc] at hstep ⊢
        exact hstep
      · simp only [heartbeatOp, setTimeoutOp]
        omega
    · exact ⟨by simpa using h, hn⟩
  | wsPongEv =>
    simp only [step]
    split
    · unfold handlePongEv
      constructor
      · have hstep : JoinLink (heartbeatOp (clearTimeoutOp st st.pingTimeout)).1
            (effs ++ (Effect.clearTimer st.pingTimeout
              :: (heartbeatOp (clearTimeoutOp st st.pingTimeout)).2)) :=
          joinLink_neutral (by simp [heartbeatOp, setTimeoutOp, clearTimeoutOp])
            (by simp [heartbeatOp, setTimeoutOp]) h
        exact hstep
      · simp only [heartbeatOp, setTimeoutOp, clearTimeoutOp]
        omega
    · exact ⟨by simpa using h, hn⟩
  | wsMessageEv m =>
    simp only [step]
    split
    · unfold handleMessageEv
      split
      · exact ⟨by simpa using h, hn⟩
      · obtain ⟨hJ, hT⟩ := joinLink_onMessageOp st _ m effs h
        exact ⟨hJ, by omega⟩
    · exact ⟨by simpa using h, hn⟩
  | wsCloseEv code reason =>
    simp only [step]
    split
    · by_cases hcode : code ≤ 1000 ∨ 2000 ≤ code
      · constructor
        · exact joinLink_neutral
            (by simp [handleCloseEv, hcode, clearTimeoutOp]) (by simp [handleCloseEv, hcode]) h
        · simp [handleCloseEv, hcode, clearTimeoutOp]
          omega
      · constructor
        · exact joinLink_neutral
            (by simp [handleCloseEv, hcode, clearTimeoutOp, connectOp, connectRaw])
            (by simp [handleCloseEv, hcode, clearTimeoutOp, connectOp, connectRaw]) h
        · simp [handleCloseEv, hcode, clearTimeoutOp, connectOp, connectRaw]
          omega
    · exact ⟨by simpa using h, hn⟩
  | wsErrorEv =>
    simp only [step]
    split
    · exact ⟨joinLink_neutral rfl (by simp) h, hn⟩
    · exact ⟨by simpa using h, hn⟩
  | timerEv tid =>
    simp only [step]
    unfold fireTimerOp
    split
    · exact ⟨by simpa using h, hn⟩
    · rename_i t hfind
      have h' : JoinLink (clearTimeoutOp st tid) effs := joinLink_congr rfl h
      have hn' : 1 ≤ (clearTimeoutOp st tid).nextTimerId := hn
      cases hact : t.action with
      | joinRetry cid =>
        unfold runTimerAction
        exact ⟨joinLink_joinOp cid hn' h', le_trans hn' (joinOp_tid _ cid)⟩
      | heartbeatIdle =>
        unfold runTimerAction
        constructor
        · exact joinLink_neutral (by simp [setTimeoutOp, clearTimeoutOp])
            (by simp [setTimeoutOp]) h
        · simp only [setTimeoutOp, clearTimeoutOp]
          omega
      | pongDeadline =>
        unfold runTimerAction
        exact ⟨joinLink_neutral (by simp [clearTimeoutOp]) (by simp) h, hn⟩
  | apiChannel c p k =>
    simp only [step]
    cases hlk : lookupKey st.channels (channelKey c p) with
    | some cid =>
      rw [channelOp_found hlk k]
      exact ⟨by simpa using h, hn⟩
    | none =>
      rw [channelOp_fresh hlk k]
      have h1 : JoinLink
          { st with chanObjs := st.chanObjs ++ [⟨c, p, k, 0⟩],
                    channels := st.channels ++ [(channelKey c p, st.chanObjs.length)] }
          effs := joinLink_appendObj rfl h
      refine ⟨joinLink_joinOp _ hn h1, ?_⟩
      have htid := joinOp_tid
        { st with chanObjs := st.chanObjs ++ [⟨c, p, k, 0⟩],
                  channels := st.channels ++ [(channelKey c p, st.chanObjs.length)] }
        st.chanObjs.length
      exact le_trans hn htid
  | apiQuit cid =>
    simp only [step]
    unfold quitOp
    split
    · exact ⟨by simpa using h, hn⟩
    · exact ⟨joinLink_neutral rfl (by simp) h, hn⟩
  | apiSend cid payload =>
    simp only [step]
    unfold sendDataOp
    split
    · exact ⟨by simpa using h, hn⟩
    · exact ⟨joinLink_neutral rfl (by simp) h, hn⟩
  | apiClose =>
    simp only [step]
    split
    · exact ⟨joinLink_neutral rfl (by simp) h, hn⟩
    · exact ⟨by simpa using h, hn⟩
  | apiConnect =>
    simp only [step]
    cases hco : connectOp st with
    | ok pr =>
      have : pr = connectRaw st := by
        unfold connectOp at hco
        split at hco
        · cases hco
        · cases hco
          rfl
      subst this
      exact ⟨joinLink_neutral (by simp [connectRaw]) (by simp [connectRaw]) h, hn⟩
    | error msg => exact ⟨by simpa using h, hn⟩

lemma c8inv_run (st : SocketState) (evts : List Event) (effs : List Effect)
    (hn : 1 ≤ st.nextTimerId) (h : JoinLink st effs) :
    JoinLink (runEvents st evts).1 (effs ++ (runEvents st evts).2)
      ∧ 1 ≤ (runEvents st evts).1.nextTimerId := by
  induction evts generalizing st effs with
  | nil =>
    refine ⟨?_, hn⟩
    show JoinLink st (effs ++ [])
    simpa using h
  | cons e rest ih =>
    obtain ⟨h1, hn1⟩ := c8inv_step st e effs hn h
    have h2 := ih (step st e).1 (effs ++ (step st e).2) hn1 h1
    simp only [runEvents]
    constructor
    · rw [← List.append_assoc]
      exact h2.1
    · exact h2.2

lemma c8inv_init (url : String) :
    JoinLink (socketInit url).1 (socketInit url).2
      ∧ 1 ≤ (socketInit url).1.nextTimerId := by
  constructor
  · intro c p k
    constructor
    · rintro ⟨g, hg⟩
      simp [socketInit, connectOp, connectRaw, blankState] at hg
    · rintro ⟨ch, hmem, _⟩
      simp [socketInit, connectOp, connectRaw, blankState] at hmem
  · simp [socketInit, connectOp, connectRaw, blankState]

/-- Counterexample to claim C8 as stated.  The claim: a channel exists in
the registry iff a join request for it has been sent at least once.  In
the reachable state in which `channel("a")` was called while the transport
was still CONNECTING (the constructor connects asynchronously), the
channel sits in the registry — but the entire effect trace contains no
frame at all: `_join` returned early because the socket was not open, so
no join request was ever sent. -/
theorem c8_counterexample :
    (runFromInit "u" [Event.apiChannel "a" "" ""]).1.channels = [(channelKey "a" "", 0)]
    ∧ (runFromInit "u" [Event.apiChannel "a" "" ""]).1.chanObjs
        = [{ channel := "a", param := "", exclusiveKey := "", joinTimeout := 0 }]
    ∧ (runFromInit "u" [Event.apiChannel "a" "" ""]).2 = [Effect.wsNew 1 "u" 10000] := by
  decide

/-- Claim C8 as amended: over every reachable state, a join request for
the identity `(c, p, k)` has been sent at least once iff some channel
object with that identity has had its join retry timer scheduled (its
`_joinTimeout` field assigned).  Registry membership is neither necessary
nor sufficient: a channel requested while the transport is not open is
registered with no join sent until the next open (see the counterexample),
and a quit channel leaves the registry even though a join was sent. -/
theorem c8_join_iff_retry_scheduled (url : String) (evts : List Event) (c p k : String) :
    joinSentFor (runFromInit url evts).2 c p k ↔
      ∃ ch ∈ (runFromInit url evts).1.chanObjs,
        ch.channel = c ∧ ch.param = p ∧ ch.exclusiveKey = k ∧ ch.joinTimeout ≠ 0 := by
  obtain ⟨hJ, hN⟩ := c8inv_init url
  obtain ⟨h1, _⟩ := c8inv_run (socketInit url).1 evts (socketInit url).2 hN hJ
  exact h1 c p k

/-! ## Claim C10 -/

/-- Whether an effect is an outbound `join_channel` or
`disconnect_channel` frame carrying the exclusive key `k`. -/
def usesExclusiveKey (k : String) : Effect → Bool
  | Effect.sendFrame _ (OutgoingMessage.joinChannelMsg _ _ ek) => ek == k
  | Effect.sendFrame _ (OutgoingMessage.disconnectChannelMsg _ _ ek) => ek == k
  | _ => false

lemma joinOp_keyFree (k : String) (st : SocketState) (cid : Nat)
    (hst : ∀ ch ∈ st.chanObjs, ch.exclusiveKey ≠ k) :
    (∀ ch ∈ (joinOp st cid).1.chanObjs, ch.exclusiveKey ≠ k)
      ∧ ∀ ef ∈ (joinOp st cid).2, usesExclusiveKey k ef = false := by
  unfold joinOp
  split
  · exact ⟨hst, by simp⟩
  · split
    · exact ⟨hst, by simp⟩
    · rename_i ch hch
      have hchk : ch.exclusiveKey ≠ k := hst ch (List.getElem?_mem hch)
      constructor
      · intro ch' hmem
        simp only [setTimeoutOp] at hmem
        rcases List.mem_or_eq_of_mem_set hmem with hm | hm
        · exact hst ch' hm
        · subst hm
          exact hchk
      · intro ef hef
        simp only [List.mem_cons, List.not_mem_nil, or_false] at hef
        rcases hef with hef | hef <;> subst hef <;> simp [usesExclusiveKey, hchk]

lemma joinAllOp_keyFree (k : String) (cids : List Nat) (st : SocketState)
    (hst : ∀ ch ∈ st.chanObjs, ch.exclusiveKey ≠ k) :
    (∀ ch ∈ (joinAllOp st cids).1.chanObjs, ch.exclusiveKey ≠ k)
      ∧ ∀ ef ∈ (joinAllOp st cids).2, usesExclusiveKey k ef = false := by
  induction cids generalizing st with
  | nil => exact ⟨hst, by simp [joinAllOp]⟩
  | cons c rest ih =>
    obtain ⟨h1, h2⟩ := joinOp_keyFree k st c hst
    obtain ⟨h3, h4⟩ := ih (joinOp st c).1 h1
    refine ⟨h3, ?_⟩
    intro ef hef
    simp only [joinAllOp, List.mem_append] at hef
    rcases hef with hef | hef
    · exact h2 ef hef
    · exact h4 ef hef

lemma keyFree_step (k : String) (st : SocketState) (e : Event)
    (hst : ∀ ch ∈ st.chanObjs, ch.exclusiveKey ≠ k)
    (he : ∀ c p, e ≠ Event.apiChannel c p k) :
    (∀ ch ∈ (step st e).1.chanObjs, ch.exclusiveKey ≠ k)
      ∧ ∀ ef ∈ (step st e).2, usesExclusiveKey k ef = false := by
  cases e with
  | wsOpenEv =>
    simp only [step]
    split
    · unfold handleOpenEv
      obtain ⟨h1, h2⟩ := joinAllOp_keyFree k
        (({ st with readyState := ReadyState.opened } : SocketState).channels.map Prod.snd)
        { st with readyState := ReadyState.opened } hst
      refine ⟨h1, ?_⟩
      intro ef hef
      simp only [List.append_assoc, List.mem_append, List.mem_cons,
        List.not_mem_nil, or_false] at hef
      rcases hef with hef | hef | hef
      · exact h2 ef hef
      · subst hef; rfl
      · have : ef = Effect.setTimer
            (joinAllOp { st with readyState := ReadyState.opened }
              (({ st with readyState := ReadyState.opened } : SocketState).channels.map
                Prod.snd)).1.nextTimerId 10000 := by
          simpa [heartbeatOp, setTimeoutOp] using hef
        subst this; rfl
    · exact ⟨hst, by simp⟩
  | wsPongEv =>
    simp only [step]
    split
    · refine ⟨hst, ?_⟩
      intro ef hef
      simp only [handlePongEv, heartbeatOp, setTimeoutOp, clearTimeoutOp, List.mem_cons,
        List.not_mem_nil, or_false] at hef
      rcases hef with hef | hef <;> subst hef <;> rfl
    · exact ⟨hst, by simp⟩
  | wsMessageEv m =>
    simp only [step]
    split
    · unfold handleMessageEv
      split
      · exact ⟨hst, by simp⟩
      · unfold onMessageOp
        split
        · exact ⟨hst, by simp⟩
        · split
          · exact ⟨hst, by rintro ef hef; simp only [List.mem_singleton] at hef; subst hef; rfl⟩
          · refine ⟨hst, ?_⟩
            intro ef hef
            simp only [List.mem_cons, List.not_mem_nil, or_false] at hef
            rcases hef with hef | hef <;> subst hef <;> rfl
          · exact ⟨hst, by rintro ef hef; simp only [List.mem_singleton] at hef; subst hef; rfl⟩
          · exact ⟨hst, by simp⟩
    · exact ⟨hst, by simp⟩
  | wsCloseEv code reason =>
    simp only [step]
    split
    · by_cases hcode : code ≤ 1000 ∨ 2000 ≤ code
      · refine ⟨?_, ?_⟩
        · intro ch hmem
          apply hst
          simpa [handleCloseEv, hcode, clearTimeoutOp] using hmem
        · intro ef hef
          simp only [handleCloseEv, hcode, reduceIte, List.mem_cons,
            List.not_mem_nil, or_false] at hef
          rcases hef with hef | hef <;> subst hef <;> rfl
      · refine ⟨?_, ?_⟩
        · intro ch hmem
          apply hst
          simpa [handleCloseEv, hcode, clearTimeoutOp, connectOp, connectRaw] using hmem
        · intro ef hef
          simp [handleCloseEv, hcode, clearTimeoutOp, connectOp, connectRaw] at hef
          rcases hef with hef | hef | hef <;> subst hef <;> rfl
    · exact ⟨hst, by simp⟩
  | wsErrorEv =>
    simp only [step]
    split
    · exact ⟨hst, by rintro ef hef; simp only [List.mem_singleton] at hef; subst hef; rfl⟩
    · exact ⟨hst, by simp⟩
  | timerEv tid =>
    simp only [step]
    unfold fireTimerOp
    split
    · exact ⟨hst, by simp⟩
    · rename_i t hfind
      cases t.action with
      | joinRetry cid =>
        unfold runTimerAction
        exact joinOp_keyFree k (clearTimeoutOp st tid) cid hst
      | heartbeatIdle =>
        unfold runTimerAction
        refine ⟨hst, ?_⟩
        intro ef hef
        simp only [setTimeoutOp, clearTimeoutOp, List.mem_cons,
          List.not_mem_nil, or_false] at hef
        rcases hef with hef | hef <;> subst hef <;> rfl
      | pongDeadline =>
        unfold runTimerAction
        exact ⟨hst, by rintro ef hef; simp only [List.mem_singleton] at hef; subst hef; rfl⟩
  | apiChannel c p k' =>
    simp only [step]
    have hk' : k' ≠ k := by
      intro hx
      exact he c p (by rw [hx])
    cases hlk : lookupKey st.channels (channelKey c p) with
    | some cid =>
      rw [channelOp_found hlk k']
      exact ⟨hst, by simp⟩
    | none =>
      rw [channelOp_fresh hlk k']
      apply joinOp_keyFree
      intro ch hmem
      rcases List.mem_append.mp hmem with hm | hm
      · exact hst ch hm
      · rw [List.mem_singleton] at hm
        subst hm
        exact hk'
  | apiQuit cid =>
    simp only [step]
    unfold quitOp
    split
    · exact ⟨hst, by simp⟩
    · rename_i ch hch
      refine ⟨hst, ?_⟩
      intro ef hef
      simp only [List.mem_singleton] at hef
      subst hef
      simp [usesExclusiveKey, hst ch (List.getElem?_mem hch)]
  | apiSend cid payload =>
    simp only [step]
    unfold sendDataOp
    split
    · exact ⟨hst, by simp⟩
    · exact ⟨hst, by rintro ef hef; simp only [List.mem_singleton] at hef; subst hef; rfl⟩
  | apiClose =>
    simp only [step]
    split
    · exact ⟨hst, by rintro ef hef; simp only [List.mem_singleton] at hef; subst hef; rfl⟩
    · exact ⟨hst, by simp⟩
  | apiConnect =>
    simp only [step]
    cases hco : connectOp st with
    | ok pr =>
      have hpr : pr = connectRaw st := by
        unfold connectOp at hco
        split at hco
        · cases hco
        · cases hco
          rfl
      subst hpr
      refine ⟨hst, ?_⟩
      intro ef hef
      simp only [connectRaw, List.mem_singleton] at hef
      subst hef
      rfl
    | error msg => exact ⟨hst, by simp⟩

lemma keyFree_run (k : String) (st : SocketState) (evts : List Event)
    (hst : ∀ ch ∈ st.chanObjs, ch.exclusiveKey ≠ k)
    (he : ∀ c p, Event.apiChannel c p k ∉ evts) :
    (∀ ch ∈ (runEvents st evts).1.chanObjs, ch.exclusiveKey ≠ k)
      ∧ ∀ ef ∈ (runEvents st evts).2, usesExclusiveKey k ef = false := by
  induction evts generalizing st with
  | nil => exact ⟨hst, by simp [runEvents]⟩
  | cons e rest ih =>
    have he1 : ∀ c p, e ≠ Event.apiChannel c p k := by
      intro c p hx
      exact he c p (by rw [hx]; exact List.mem_cons_self _ _)
    have he2 : ∀ c p, Event.apiChannel c p k ∉ rest := by
      intro c p hx
      exact he c p (List.mem_cons_of_mem _ hx)
    obtain ⟨h1, h2⟩ := keyFree_step k st e hst he1
    obtain ⟨h3, h4⟩ := ih (step st e).1 h1 he2
    refine ⟨h3, ?_⟩
    intro ef hef
    simp only [runEvents, List.mem_append] at hef
    rcases hef with hef | hef
    · exact h2 ef hef
    · exact h4 ef hef

/-- Claim C10 (implicit): when `channel(name, param, k2)` is called while
a channel for `(name, param)` is already registered (created earlier with
exclusive key `k1`), the existing channel is returned unchanged — its
`exclusiveKey` is still `k1`, no state changes, nothing is sent — and the
new key `k2` (fresh: no heap object carries it) is never used in any
subsequent `join_channel` or `disconnect_channel` frame, as long as no
later `channel()` call passes `k2` itself. -/
theorem c10_exclusive_key_ignored (st : SocketState) (name p k1 k2 : String)
    (cid : Nat) (ch : ChannelObj)
    (hlk : lookupKey st.channels (channelKey name p) = some cid)
    (hch : st.chanObjs[cid]? = some ch) (hk1 : ch.exclusiveKey = k1)
    (hfree : ∀ ch' ∈ st.chanObjs, ch'.exclusiveKey ≠ k2) :
    channelOp st name p k2 = ((st, []), cid)
    ∧ (channelOp st name p k2).1.1.chanObjs[cid]? = some ch
    ∧ ch.exclusiveKey = k1
    ∧ ∀ evts, (∀ c' p', Event.apiChannel c' p' k2 ∉ evts) →
        ∀ ef ∈ (runEvents (channelOp st name p k2).1.1 evts).2,
          usesExclusiveKey k2 ef = false := by
  have heq := channelOp_found hlk k2
  refine ⟨heq, by rw [heq]; exact hch, hk1, ?_⟩
  intro evts hevts ef hef
  rw [heq] at hef
  exact (keyFree_run k2 st evts hfree hevts).2 ef hef

/-- Witness for C10: on `stOpenDemo` (channel `("a", "")` registered with
exclusive key `"k"`), a second request with key `"K2"` returns the
existing channel object 0 with its key still `"k"`, and the run in which
the stale retry fires and the channel is quit sends its join and
disconnect frames with `"k"`, never `"K2"`. -/
theorem c10_exclusive_key_ignored_witness :
    channelOp stOpenDemo "a" "" "K2" = ((stOpenDemo, []), 0)
    ∧ (channelOp stOpenDemo "a" "" "K2").1.1.chanObjs[0]? =
        some { channel := "a", param := "", exclusiveKey := "k", joinTimeout := 2 }
    ∧ ({ channel := "a", param := "", exclusiveKey := "k",
         joinTimeout := 2 } : ChannelObj).exclusiveKey = "k"
    ∧ ∀ ef ∈ (runEvents (channelOp stOpenDemo "a" "" "K2").1.1
          [Event.timerEv 2, Event.apiQuit 0]).2,
        usesExclusiveKey "K2" ef = false :=
  have h := c10_exclusive_key_ignored stOpenDemo "a" "" "k" "K2" 0
    { channel := "a", param := "", exclusiveKey := "k", joinTimeout := 2 }
    (by decide) (by decide) rfl
    (by
      intro ch' hmem
      rw [show stOpenDemo.chanObjs
          = [{ channel := "a", param := "", exclusiveKey := "k", joinTimeout := 2 }]
        by decide] at hmem
      rw [List.mem_singleton] at hmem
      subst hmem
      decide)
  ⟨h.1, h.2.1, h.2.2.1,
   h.2.2.2 [Event.timerEv 2, Event.apiQuit 0]
     (by
       intro c' p' hmem
       simp only [List.mem_cons, List.not_mem_nil, or_false] at hmem
       rcases hmem with hmem | hmem <;> cases hmem)⟩

/-! ## Registry well-formedness holds in every reachable state

This discharges the `RegWF` hypothesis of claim C6 for every state a real
`Socket` can be in. -/

lemma regWF_congr {st st' : SocketState}
    (hc : st'.channels = st.channels) (ho : st'.chanObjs = st.chanObjs)
    (h : RegWF st) : RegWF st' := by
  intro key cid hmem
  rw [hc] at hmem
  rw [ho]
  exact h key cid hmem

lemma deleteKey_subset {l : List (String × Nat)} {key : String} {kv : String × Nat}
    (h : kv ∈ deleteKey l key) : kv ∈ l := by
  induction l with
  | nil => cases h
  | cons kv' r ih =>
    obtain ⟨k', v'⟩ := kv'
    unfold deleteKey at h
    by_cases hk : k' = key
    · rw [if_pos hk] at h
      exact List.mem_cons_of_mem _ h
    · rw [if_neg hk] at h
      rcases List.mem_cons.mp h with hm | hm
      · exact hm ▸ List.mem_cons_self _ _
      · exact List.mem_cons_of_mem _ (ih hm)

lemma joinAllOp_RegWF (cids : List Nat) (st : SocketState) (h : RegWF st) :
    RegWF (joinAllOp st cids).1 := by
  induction cids generalizing st with
  | nil => exact h
  | cons c rest ih => exact ih (joinOp st c).1 (joinOp_RegWF st c h)

lemma regWF_step (st : SocketState) (e : Event) (h : RegWF st) :
    RegWF (step st e).1 := by
  cases e with
  | wsOpenEv =>
    simp only [step]
    split
    · unfold handleOpenEv
      exact regWF_congr rfl rfl
        (joinAllOp_RegWF _ { st with readyState := ReadyState.opened } (regWF_congr rfl rfl h))
    · exact h
  | wsPongEv =>
    simp only [step]
    split
    · exact regWF_congr rfl rfl h
    · exact h
  | wsMessageEv m =>
    simp only [step]
    split
    · unfold handleMessageEv
      split
      · exact h
      · unfold onMessageOp
        split
        · exact h
        · split
          · exact h
          · exact regWF_congr rfl rfl h
          · exact h
          · exact h
    · exact h
  | wsCloseEv code reason =>
    simp only [step]
    split
    · unfold handleCloseEv
      split
      · exact regWF_congr rfl rfl h
      · dsimp only
        split
        · rename_i pr hpr
          have hpr' : pr = connectRaw (clearTimeoutOp
              { st with readyState := ReadyState.closed } st.pingTimeout) := by
            unfold connectOp at hpr
            split at hpr
            · cases hpr
            · cases hpr
              rfl
          subst hpr'
          exact regWF_congr rfl rfl h
        · exact regWF_congr rfl rfl h
    · exact h
  | wsErrorEv =>
    simp only [step]
    split
    · exact regWF_congr rfl rfl h
    · exact h
  | timerEv tid =>
    simp only [step]
    unfold fireTimerOp
    split
    · exact h
    · rename_i t hfind
      cases t.action with
      | joinRetry cid => exact joinOp_RegWF _ cid (regWF_congr rfl rfl h)
      | heartbeatIdle => exact regWF_congr rfl rfl h
      | pongDeadline => exact regWF_congr rfl rfl h
  | apiChannel c p k =>
    simp only [step]
    exact channelOp_RegWF st c p k h
  | apiQuit cid =>
    simp only [step]
    unfold quitOp
    split
    · exact h
    · intro key cid' hmem
      exact h key cid' (deleteKey_subset hmem)
  | apiSend cid payload =>
    simp only [step]
    unfold sendDataOp
    split
    · exact h
    · exact h
  | apiClose =>
    simp only [step]
    split
    · exact regWF_congr rfl rfl h
    · exact h
  | apiConnect =>
    simp only [step]
    cases hco : connectOp st with
    | ok pr =>
      have : pr = connectRaw st := by
        unfold connectOp at hco
        split at hco
        · cases hco
        · cases hco
          rfl
      subst this
      exact regWF_congr rfl rfl h
    | error msg => exact h

lemma regWF_run (st : SocketState) (evts : List Event) (h : RegWF st) :
    RegWF (runEvents st evts).1 := by
  induction evts generalizing st with
  | nil => exact h
  | cons e rest ih =>
    simp only [runEvents]
    exact ih (step st e).1 (regWF_step st e h)

/-- Every reachable state of a `Socket` has a well-formed registry, so the
hypothesis of claim C6 is satisfied by every real `Connection`. -/
lemma regWF_reachable (url : String) (evts : List Event) :
    RegWF (runFromInit url evts).1 := by
  apply regWF_run
  intro key cid hmem
  simp [socketInit, connectOp, connectRaw, blankState] at hmem
